import Mathlib

set_option maxRecDepth 10000

/-!
Verification of the prediction-generation pipeline of the Odd2 repository.

The Python sources under `src/prediction/` (analyzer.py, generator.py) are
shallowly embedded below.  Python floats are modelled as rationals (`ℚ`);
`round(x, n)` is modelled as ideal round-half-to-even on rationals
(`roundTo`), which agrees with the Python results on every concrete value
appearing in the claims.  Kickoff timestamps (`match_time`), which the code
carries through unchanged from the wall clock and which no claim inspects,
are omitted from the records.  The SQLAlchemy database session of
`generate_and_save_predictions` is modelled as a list of stored rows.
-/

/-- Round a rational to the nearest integer, ties to even
(the rounding mode of Python `round`). -/
def roundHalfEven (q : ℚ) : ℤ :=
  let n := ⌊q⌋
  let frac := q - (n : ℚ)
  if frac < 1/2 then n
  else if 1/2 < frac then n + 1
  else if n % 2 = 0 then n else n + 1

/-- Python `round(q, d)`: round to `d` decimal places, ties to even. -/
def roundTo (q : ℚ) (d : ℕ) : ℚ :=
  (roundHalfEven (q * (10 : ℚ) ^ d) : ℚ) / (10 : ℚ) ^ d

/-- `round(q, 2)` — the rounding used for combined odds. -/
def round2 (q : ℚ) : ℚ := roundTo q 2

/-- One recent-match record of a team (a Form Sample): the goals_for,
goals_against and total_goals numbers consumed by
`MatchAnalyzer._calculate_factors`. -/
structure FormSample where
  goals_for : ℚ
  goals_against : ℚ
  total_goals : ℚ
deriving DecidableEq

/-- The six-factor vector computed by `MatchAnalyzer._calculate_factors`. -/
structure Factors where
  team_scoring_form : ℚ
  team_conceding_form : ℚ
  h2h_history : ℚ
  league_position : ℚ
  home_advantage : ℚ
  recent_goals_trend : ℚ
deriving DecidableEq

/-- `MatchAnalyzer.weights` applied to a factor vector: the weighted
adjustment summed in `_adjust_probability`. -/
def weighted_adjustment (f : Factors) : ℚ :=
  f.team_scoring_form * (25/100) + f.team_conceding_form * (20/100) +
  f.h2h_history * (15/100) + f.league_position * (10/100) +
  f.home_advantage * (10/100) + f.recent_goals_trend * (20/100)

/-- `MatchAnalyzer.base_probabilities`, in dict insertion order. -/
def base_probabilities : List (ℚ × ℚ) :=
  [(1/2, 95/100), (3/2, 92/100), (5/2, 72/100), (7/2, 48/100), (9/2, 28/100)]

/-- The clamp `max(-0.5, min(0.5, x))` applied to every factor at the end of
`_calculate_factors`. -/
def clampFactor (x : ℚ) : ℚ := max (-(1/2)) (min (1/2) x)

/-- Average of a numeric field over a list of form samples
(`sum(...) / len(...)`); only used on non-empty lists. -/
def avgOf (g : FormSample → ℚ) (l : List FormSample) : ℚ :=
  (l.map g).sum / (l.length : ℚ)

/-- `MatchAnalyzer._calculate_factors`.  `h2h_avg` is the avg_goals value
of the head-to-head data (the fetcher default is 2.5). -/
def calculate_factors (home_matches away_matches : List FormSample)
    (h2h_avg : ℚ) : Factors :=
  let scoring :=
    (if home_matches.isEmpty then 0
     else (avgOf FormSample.goals_for home_matches - 13/10) / 2) +
    (if away_matches.isEmpty then 0
     else (avgOf FormSample.goals_for away_matches - 13/10) / 2)
  let conceding :=
    (if home_matches.isEmpty then 0
     else (avgOf FormSample.goals_against home_matches - 13/10) / 2) +
    (if away_matches.isEmpty then 0
     else (avgOf FormSample.goals_against away_matches - 13/10) / 2)
  let h2h := (h2h_avg - 5/2) / 3
  let all_matches := home_matches.take 5 ++ away_matches.take 5
  let trend :=
    if all_matches.isEmpty then 0
    else (avgOf FormSample.total_goals all_matches - 5/2) / 2
  { team_scoring_form := clampFactor scoring
    team_conceding_form := clampFactor conceding
    h2h_history := clampFactor h2h
    league_position := clampFactor 0
    home_advantage := clampFactor (1/10)
    recent_goals_trend := clampFactor trend }

/-- `MatchAnalyzer._adjust_probability`. -/
def adjust_probability (base_prob : ℚ) (factors : Factors) (threshold : ℚ) : ℚ :=
  let adjusted := base_prob + weighted_adjustment factors
  if threshold ≤ 3/2 then adjusted + factors.team_scoring_form * (1/10)
  else if 7/2 ≤ threshold then adjusted + factors.recent_goals_trend * (15/100)
  else adjusted

/-- `MatchAnalyzer._calculate_confidence`. -/
def calculate_confidence (f : Factors) : String :=
  let strong : List ℚ :=
    [f.team_scoring_form, f.team_conceding_form, f.h2h_history,
     f.league_position, f.home_advantage, f.recent_goals_trend]
  let strong_signals := strong.countP (fun v => decide (1/5 < |v|))
  if 3 ≤ strong_signals then "high"
  else if 1 ≤ strong_signals then "medium"
  else "low"

/-- The bet label built by the Python f-string: the word Over followed by
the threshold rendered with one decimal, for the thresholds the analyzer
uses. -/
def overLabel (t : ℚ) : String :=
  if t = 1/2 then "Over 0.5"
  else if t = 3/2 then "Over 1.5"
  else if t = 5/2 then "Over 2.5"
  else if t = 7/2 then "Over 3.5"
  else if t = 9/2 then "Over 4.5"
  else "Over ?"

/-- One value of the per-threshold predictions dict built by
`MatchAnalyzer.analyze_match`. -/
structure PredData where
  probability : ℚ
  bet_type : String
  confidence : String
deriving DecidableEq

/-- The predictions dict built by `MatchAnalyzer.analyze_match` from a
factor vector: one entry per threshold of `base_probabilities`, probability
clamped to `[0.05, 0.95]`, in insertion order. -/
def analyze_match_predictions (factors : Factors) : List (ℚ × PredData) :=
  base_probabilities.map fun p =>
    (p.1,
     { probability := min (95/100) (max (5/100) (adjust_probability p.2 factors p.1))
       bet_type := overLabel p.1
       confidence := calculate_confidence factors })

/-- The result record of `MatchAnalyzer.get_best_bet_type`. -/
structure BestBet where
  bet_type : String
  probability : ℚ
  threshold : ℚ
deriving DecidableEq

/-- Association-list lookup keyed by a rational (`threshold in predictions`
followed by `predictions[threshold]`; dict keys are unique, the first hit
wins). -/
def lookupQ {β : Type} : List (ℚ × β) → ℚ → Option β
  | [], _ => none
  | (k, v) :: rest, t => if t = k then some v else lookupQ rest t

/-- `priority_order` of `get_best_bet_type`. -/
def priority_order : List ℚ := [3/2, 5/2, 1/2, 7/2]

/-- One pass of `get_best_bet_type`: walk the priority order and return the
first present threshold whose probability meets `cutoff`. -/
def pass_over (preds : List (ℚ × PredData)) (cutoff : ℚ) :
    List ℚ → Option BestBet
  | [] => none
  | t :: rest =>
    match lookupQ preds t with
    | some p =>
        if cutoff ≤ p.probability then
          some { bet_type := p.bet_type, probability := p.probability, threshold := t }
        else pass_over preds cutoff rest
    | none => pass_over preds cutoff rest

/-- The accumulator step of the final fallback, the Python max over
predictions.items() keyed by probability (Python max keeps the earliest
maximal item). -/
def fb_step (acc x : ℚ × PredData) : ℚ × PredData :=
  if acc.2.probability < x.2.probability then x else acc

/-- `MatchAnalyzer.get_best_bet_type`: three passes over the priority order
with cutoffs `min_prob`, `0.75`, `0.65`, then the highest-probability entry
unconditionally.  (On an empty dict the Python `max` would raise; the model
returns `none` there.) -/
def get_best_bet_type (preds : List (ℚ × PredData)) (min_prob : ℚ) :
    Option BestBet :=
  match pass_over preds min_prob priority_order with
  | some b => some b
  | none =>
    match pass_over preds (75/100) priority_order with
    | some b => some b
    | none =>
      match pass_over preds (65/100) priority_order with
      | some b => some b
      | none =>
        match preds with
        | [] => none
        | e :: rest =>
          let best := rest.foldl fb_step e
          some { bet_type := best.2.bet_type
                 probability := best.2.probability
                 threshold := best.1 }

/-- `MatchAnalyzer.calculate_combined_probability` over the list of the
probability values of the bets. -/
def calculate_combined_probability (bets : List ℚ) : ℚ :=
  if bets.isEmpty then 0 else bets.foldl (fun combined p => combined * p) 1

/-- `MatchAnalyzer.calculate_combined_odds` over the list of the odds
values of the bets. -/
def calculate_combined_odds (bets : List ℚ) : ℚ :=
  if bets.isEmpty then 0
  else round2 (bets.foldl (fun combined o => combined * o) 1)

/-- `OddsEstimator.MARKET_ODDS` as an association list
threshold ↦ (low, mid, high). -/
def MARKET_ODDS : List (ℚ × (ℚ × ℚ × ℚ)) :=
  [(1/2, (103/100, 107/100, 112/100)),
   (3/2, (125/100, 140/100, 160/100)),
   (5/2, (170/100, 185/100, 195/100)),
   (7/2, (230/100, 265/100, 310/100)),
   (9/2, (350/100, 450/100, 550/100)),
   (11/2, (600/100, 800/100, 1100/100))]

/-- `OddsEstimator.estimate_over_odds`. -/
def estimate_over_odds (threshold probability : ℚ) : ℚ :=
  match lookupQ MARKET_ODDS threshold with
  | none => round2 (1 / max (1/10) probability)
  | some odds_range =>
    if 70/100 ≤ probability then odds_range.1
    else if 55/100 ≤ probability then odds_range.2.1
    else odds_range.2.2

/-- An analyzed match: the record built by
`PredictionGenerator._analyze_match` (and the shape of the demo matches).
The kickoff timestamp is omitted (wall-clock data no claim inspects). -/
structure AnalyzedMatch where
  home_team : String
  away_team : String
  league : String
  bet_type : String
  odds : ℚ
  probability : ℚ
deriving DecidableEq

/-- A combination record built by
`PredictionGenerator._generate_combinations`. -/
structure Combination where
  matchList : List AnalyzedMatch
  total_odds : ℚ
  success_probability : ℚ
deriving DecidableEq

/-- `Config.MIN_TOTAL_ODDS` (src/config.py). -/
def MIN_TOTAL_ODDS : ℚ := 2

/-- `itertools.combinations(xs, n)`: all length-`n` subsequences of `xs`,
in the order Python emits them. -/
def combinationsPy {α : Type} : ℕ → List α → List (List α)
  | 0, _ => [[]]
  | _ + 1, [] => []
  | n + 1, x :: xs =>
      (combinationsPy n xs).map (fun c => x :: c) ++ combinationsPy (n + 1) xs

/-- The body of the inner loop of `_generate_combinations` for one subset:
total odds as the running product, the `>= min_total_odds` filter, and the
combination record (odds rounded to 2 decimals, combined success
probability via `calculate_combined_probability`). -/
def mk_combination (min_total_odds : ℚ) (combo : List AnalyzedMatch) :
    Option Combination :=
  let total_odds := combo.foldl (fun acc m => acc * m.odds) 1
  if min_total_odds ≤ total_odds then
    some { matchList := combo
           total_odds := round2 total_odds
           success_probability :=
             calculate_combined_probability (combo.map AnalyzedMatch.probability) }
  else none

/-- `PredictionGenerator._generate_combinations`:
`for size in range(min_size, min(max_size + 1, len(matches) + 1))`,
then every size-`size` combination that clears `min_total_odds`. -/
def generate_combinations (ms : List AnalyzedMatch) (min_total_odds : ℚ)
    (min_size : ℕ := 2) (max_size : ℕ := 5) : List Combination :=
  (List.range' min_size (min (max_size + 1) (ms.length + 1) - min_size)).flatMap
    fun size => (combinationsPy size ms).filterMap (mk_combination min_total_odds)

/-- A fetched upcoming match, as consumed by `_analyze_match`: the
home_team and away_team names and the competition name. -/
structure RawMatch where
  home_team : String
  away_team : String
  competition_name : String
deriving DecidableEq

/-- `PredictionGenerator._analyze_match`, parameterised by the predictions
dict that `analyzer.analyze_match` produced for the match (the fetcher data
behind it is external).  Returns `none` when there is no best bet or when
the estimated odds fall below 1.15. -/
def analyze_match_best (m : RawMatch) (preds : List (ℚ × PredData)) :
    Option AnalyzedMatch :=
  match get_best_bet_type preds (50/100) with
  | none => none
  | some best_bet =>
    let odds := estimate_over_odds best_bet.threshold best_bet.probability
    if odds < 115/100 then none
    else
      some { home_team := m.home_team
             away_team := m.away_team
             league := m.competition_name
             bet_type := best_bet.bet_type
             odds := odds
             probability := best_bet.probability }

/-- The five hardcoded demo matches of
`PredictionGenerator._generate_demo_predictions`. -/
def demo_matches : List AnalyzedMatch :=
  [ { home_team := "Manchester City", away_team := "Liverpool",
      league := "Premier League", bet_type := "Over 2.5",
      odds := 165/100, probability := 62/100 },
    { home_team := "Bayern Munich", away_team := "Borussia Dortmund",
      league := "Bundesliga", bet_type := "Over 2.5",
      odds := 155/100, probability := 65/100 },
    { home_team := "Real Madrid", away_team := "Barcelona",
      league := "La Liga", bet_type := "Over 1.5",
      odds := 135/100, probability := 72/100 },
    { home_team := "Inter Milan", away_team := "AC Milan",
      league := "Serie A", bet_type := "Over 2.5",
      odds := 175/100, probability := 58/100 },
    { home_team := "PSG", away_team := "Marseille",
      league := "Ligue 1", bet_type := "Over 2.5",
      odds := 160/100, probability := 63/100 } ]

/-- The vip/free pair returned by `generate_predictions`. -/
structure PredictionPair where
  vip : Combination
  free : Combination
deriving DecidableEq

/-- `PredictionGenerator._generate_demo_predictions`: vip takes the first
two demo matches, free the next two; odds are the product of the pair
rounded to 2 decimals, the success probability the product rounded to 3. -/
def demo_predictions : PredictionPair :=
  let vip_matches := demo_matches.take 2
  let free_matches := (demo_matches.drop 2).take 2
  { vip := { matchList := vip_matches
             total_odds := round2 ((vip_matches.map AnalyzedMatch.odds).prod)
             success_probability :=
               roundTo ((vip_matches.map AnalyzedMatch.probability).prod) 3 }
    free := { matchList := free_matches
              total_odds := round2 ((free_matches.map AnalyzedMatch.odds).prod)
              success_probability :=
                roundTo ((free_matches.map AnalyzedMatch.probability).prod) 3 } }

/-- Stable insertion of a combination into a list already sorted by
descending success probability: walk past strictly larger entries, stop at
the first entry not larger (so earlier input stays first on ties, as with
Python `sorted`). -/
def insertDesc (c : Combination) : List Combination → List Combination
  | [] => [c]
  | x :: xs =>
      if c.success_probability < x.success_probability then x :: insertDesc c xs
      else c :: x :: xs

/-- The ranking step: Python sorted by success_probability with
reverse=True, a stable descending sort (any stable sort computes the same
list as the Python one). -/
def sortDesc : List Combination → List Combination
  | [] => []
  | c :: rest => insertDesc c (sortDesc rest)

/-- Steps 4 and 5 of `generate_predictions`: rank by success probability
descending, vip is `ranked[0]`, free is `ranked[1]` if it exists else
`ranked[0]`; `none` on an empty list. -/
def rank_select (combos : List Combination) :
    Option (Combination × Combination) :=
  match sortDesc combos with
  | [] => none
  | [v] => some (v, v)
  | v :: f :: _ => some (v, f)

/-- `PredictionGenerator.generate_predictions`, parameterised by the
fetched matches and by the per-match analysis function (which wraps the
external fetcher): empty fetch, fewer than two analyzable matches, or no
valid combination fall back to the demo predictions. -/
def generate_predictions (fetched : List RawMatch)
    (analyze : RawMatch → Option AnalyzedMatch) : PredictionPair :=
  if fetched.isEmpty then demo_predictions
  else
    let analyzed := (fetched.take 20).filterMap analyze
    if analyzed.length < 2 then demo_predictions
    else
      match rank_select (generate_combinations analyzed MIN_TOTAL_ODDS) with
      | none => demo_predictions
      | some (vip, free) => { vip := vip, free := free }

/-- Lifecycle status of a stored prediction row. -/
inductive PredStatus
  | pending
  | won
  | lost
  | expired
deriving DecidableEq

/-- The type tag of a stored prediction row. -/
inductive PredType
  | vip
  | free
deriving DecidableEq

/-- A stored `Match` row (timestamps and result columns omitted — no claim
inspects them). -/
structure StoredMatch where
  team_home : String
  team_away : String
  league : String
  bet_type : String
  odds : ℚ
deriving DecidableEq

/-- A stored `Prediction` row together with its owned `Match` rows. -/
structure StoredPrediction where
  prediction_type : PredType
  total_odds : ℚ
  success_probability : ℚ
  status : PredStatus
  matchList : List StoredMatch
deriving DecidableEq

/-- The loop over old_predictions setting each status to expired,
restricted to one row: a pending row becomes expired, others are
untouched. -/
def expire_if_pending (p : StoredPrediction) : StoredPrediction :=
  if p.status = PredStatus.pending then { p with status := PredStatus.expired }
  else p

/-- Copying one analyzed match into a stored `Match` row. -/
def toStoredMatch (m : AnalyzedMatch) : StoredMatch :=
  { team_home := m.home_team, team_away := m.away_team, league := m.league,
    bet_type := m.bet_type, odds := m.odds }

/-- Building the new `Prediction` row (status `pending`) and its `Match`
rows from a chosen combination. -/
def toStoredPrediction (t : PredType) (c : Combination) : StoredPrediction :=
  { prediction_type := t, total_odds := c.total_odds,
    success_probability := c.success_probability,
    status := PredStatus.pending,
    matchList := c.matchList.map toStoredMatch }

/-- The persist step of `generate_and_save_predictions`: expire every
pending row, then insert the new vip and free rows (one atomic commit). -/
def save_predictions (db : List StoredPrediction) (preds : PredictionPair) :
    List StoredPrediction :=
  db.map expire_if_pending ++
    [toStoredPrediction PredType.vip preds.vip,
     toStoredPrediction PredType.free preds.free]

/-- `generate_and_save_predictions`: generate, then persist, returning the
database state after the commit. -/
def generate_and_save_predictions (db : List StoredPrediction)
    (fetched : List RawMatch) (analyze : RawMatch → Option AnalyzedMatch) :
    List StoredPrediction :=
  save_predictions db (generate_predictions fetched analyze)

/-- Boolean test: a vip row with status pending. -/
def is_vip_pending (p : StoredPrediction) : Bool :=
  match p.prediction_type, p.status with
  | PredType.vip, PredStatus.pending => true
  | _, _ => false

/-- Boolean test: a free row with status pending. -/
def is_free_pending (p : StoredPrediction) : Bool :=
  match p.prediction_type, p.status with
  | PredType.free, PredStatus.pending => true
  | _, _ => false

/-- Sorted by descending success probability (the order produced by the
ranking step). -/
def SortedDesc (l : List Combination) : Prop :=
  l.Pairwise (fun a b => b.success_probability ≤ a.success_probability)

/-- The first match of the end-to-end example of the spec:
A vs B, probability 0.6, odds 1.8. -/
def exA : AnalyzedMatch :=
  { home_team := "A", away_team := "B", league := "L",
    bet_type := "Over 2.5", odds := 18/10, probability := 6/10 }

/-- The second match of the end-to-end example of the spec:
C vs D, probability 0.55, odds 1.9. -/
def exC : AnalyzedMatch :=
  { home_team := "C", away_team := "D", league := "L",
    bet_type := "Over 2.5", odds := 19/10, probability := 55/100 }

/-- The third match of the end-to-end example of the spec:
E vs F, probability 0.5, odds 2.0. -/
def exE : AnalyzedMatch :=
  { home_team := "E", away_team := "F", league := "L",
    bet_type := "Over 2.5", odds := 2, probability := 5/10 }

/-- A one-element combination used to instantiate universally quantified
theorems at a concrete input. -/
def exCombo : Combination :=
  { matchList := [exA], total_odds := 18/10, success_probability := 6/10 }

/-- A concrete pending stored row, used to instantiate universally
quantified theorems about the persist step. -/
def examplePendingRow : StoredPrediction :=
  { prediction_type := PredType.vip, total_odds := 2,
    success_probability := 1/2, status := PredStatus.pending,
    matchList := [] }

lemma mem_combinationsPy {α : Type} : ∀ (n : ℕ) (xs l : List α),
    l ∈ combinationsPy n xs ↔ l.Sublist xs ∧ l.length = n := by
  intro n xs
  induction xs generalizing n with
  | nil =>
    intro l
    match n with
    | 0 =>
      simp only [combinationsPy, List.mem_singleton]
      constructor
      · rintro rfl; exact ⟨List.Sublist.refl _, rfl⟩
      · rintro ⟨hs, _⟩; exact List.sublist_nil.mp hs
    | n + 1 =>
      simp only [combinationsPy, List.not_mem_nil, false_iff, not_and]
      intro hs
      rw [List.sublist_nil.mp hs]
      simp
  | cons x xs ih =>
    intro l
    match n with
    | 0 =>
      simp only [combinationsPy, List.mem_singleton]
      constructor
      · rintro rfl; exact ⟨List.nil_sublist _, rfl⟩
      · rintro ⟨_, hl⟩; exact List.length_eq_zero.mp hl
    | n + 1 =>
      simp only [combinationsPy, List.mem_append, List.mem_map]
      constructor
      · rintro (⟨c, hc, rfl⟩ | h)
        · rcases (ih n c).mp hc with ⟨hs, hl⟩
          exact ⟨List.cons_sublist_cons.mpr hs, by simp [hl]⟩
        · rcases (ih (n + 1) l).mp h with ⟨hs, hl⟩
          exact ⟨hs.trans (List.sublist_cons_self x xs), hl⟩
      · rintro ⟨hs, hl⟩
        rcases List.sublist_cons_iff.mp hs with h | ⟨r, rfl, hr⟩
        · exact Or.inr ((ih (n + 1) l).mpr ⟨h, hl⟩)
        · exact Or.inl ⟨r, (ih n r).mpr ⟨hr, by simpa using hl⟩, rfl⟩

lemma nodup_combinationsPy {α : Type} : ∀ (n : ℕ) (xs : List α),
    xs.Nodup → (combinationsPy n xs).Nodup := by
  intro n xs
  induction xs generalizing n with
  | nil =>
    intro _
    match n with
    | 0 => simp [combinationsPy]
    | n + 1 => simp [combinationsPy]
  | cons x xs ih =>
    intro hnd
    rcases List.nodup_cons.mp hnd with ⟨hx, hxs⟩
    match n with
    | 0 => simp [combinationsPy]
    | n + 1 =>
      refine List.Nodup.append ?_ (ih (n + 1) hxs) ?_
      · exact (ih n hxs).map (fun a b h => by injection h)
      · intro l hl hl2
        rcases List.mem_map.mp hl with ⟨c, _, rfl⟩
        have hsub := ((mem_combinationsPy (n + 1) xs (x :: c)).mp hl2).1
        exact hx (hsub.subset (List.mem_cons_self x c))

lemma foldl_mul_odds (l : List AnalyzedMatch) :
    l.foldl (fun acc m => acc * m.odds) 1 = (l.map AnalyzedMatch.odds).prod := by
  rw [List.prod_eq_foldl, List.foldl_map]

lemma combined_probability_eq_prod (l : List ℚ) (h : l ≠ []) :
    calculate_combined_probability l = l.prod := by
  unfold calculate_combined_probability
  rw [if_neg (by simpa [List.isEmpty_iff] using h), List.prod_eq_foldl]

lemma mk_combination_eq_some {m : ℚ} {combo : List AnalyzedMatch}
    {c : Combination} :
    mk_combination m combo = some c ↔
      m ≤ (combo.map AnalyzedMatch.odds).prod ∧
      c = { matchList := combo,
            total_odds := round2 ((combo.map AnalyzedMatch.odds).prod),
            success_probability :=
              calculate_combined_probability
                (combo.map AnalyzedMatch.probability) } := by
  unfold mk_combination
  rw [foldl_mul_odds]
  dsimp only
  split_ifs with h
  · simp only [Option.some_inj]
    exact ⟨fun he => ⟨h, he.symm⟩, fun he => he.2.symm⟩
  · simp only [reduceCtorEq, false_iff, not_and]
    intro hm
    exact absurd hm h

lemma mem_size_step {m : ℚ} {ms : List AnalyzedMatch} {size : ℕ}
    {c : Combination}
    (h : c ∈ (combinationsPy size ms).filterMap (mk_combination m)) :
    c.matchList.length = size := by
  rcases List.mem_filterMap.mp h with ⟨combo, hcombo, hmk⟩
  rcases mk_combination_eq_some.mp hmk with ⟨_, rfl⟩
  exact ((mem_combinationsPy size ms combo).mp hcombo).2

/-- C1: for every duplicate-free list of analyzed matches with positive
odds and every minimum total odds `m`, `_generate_combinations` returns
exactly the subsets of size 2 to 5 whose odds product is at least `m`
(no others, no duplicates), each carrying total odds equal to the product
of the odds of its matches rounded to 2 decimals and success probability
equal to the product of their probabilities. -/
theorem combination_search_exact (ms : List AnalyzedMatch) (m : ℚ)
    (hnd : ms.Nodup) (hpos : ∀ x ∈ ms, 0 < x.odds) :
    (∀ c, c ∈ generate_combinations ms m ↔
        ∃ s, s.Sublist ms ∧ 2 ≤ s.length ∧ s.length ≤ 5 ∧
          m ≤ (s.map AnalyzedMatch.odds).prod ∧
          c = { matchList := s,
                total_odds := round2 ((s.map AnalyzedMatch.odds).prod),
                success_probability :=
                  (s.map AnalyzedMatch.probability).prod }) ∧
    (generate_combinations ms m).Nodup := by
  constructor
  · intro c
    constructor
    · intro hc
      unfold generate_combinations at hc
      rcases List.mem_flatMap.mp hc with ⟨size, hsize, hc2⟩
      rcases List.mem_filterMap.mp hc2 with ⟨combo, hcombo, hmk⟩
      rcases (mem_combinationsPy size ms combo).mp hcombo with ⟨hsub, hlen⟩
      rcases mk_combination_eq_some.mp hmk with ⟨hm, rfl⟩
      rcases List.mem_range'_1.mp hsize with ⟨h2, hlt⟩
      have hnle := hsub.length_le
      refine ⟨combo, hsub, by omega, by omega, hm, ?_⟩
      have hne : combo.map AnalyzedMatch.probability ≠ [] := by
        apply List.ne_nil_of_length_pos
        rw [List.length_map]
        omega
      rw [combined_probability_eq_prod _ hne]
    · rintro ⟨s, hsub, h2, h5, hm, rfl⟩
      unfold generate_combinations
      apply List.mem_flatMap.mpr
      have hnle := hsub.length_le
      refine ⟨s.length, List.mem_range'_1.mpr ⟨h2, by omega⟩, ?_⟩
      apply List.mem_filterMap.mpr
      refine ⟨s, (mem_combinationsPy s.length ms s).mpr ⟨hsub, rfl⟩, ?_⟩
      apply mk_combination_eq_some.mpr
      refine ⟨hm, ?_⟩
      have hne : s.map AnalyzedMatch.probability ≠ [] := by
        apply List.ne_nil_of_length_pos
        rw [List.length_map]
        omega
      rw [combined_probability_eq_prod _ hne]
  · unfold generate_combinations
    rw [List.nodup_flatMap]
    constructor
    · intro size _
      apply List.Nodup.filterMap
      · intro a a' b hb hb'
        simp only [Option.mem_def] at hb hb'
        rcases mk_combination_eq_some.mp hb with ⟨_, hba⟩
        rcases mk_combination_eq_some.mp hb' with ⟨_, hba'⟩
        have : a = b.matchList := by rw [hba]
        have h' : a' = b.matchList := by rw [hba']
        rw [this, h']
      · exact nodup_combinationsPy size ms hnd
    · apply List.Pairwise.imp ?_ (List.nodup_range' 2 _)
      intro a b hab
      intro c hca hcb
      exact hab (by rw [← mem_size_step hca, ← mem_size_step hcb])

/-- Witness for C1: the five demo matches (n = 5, minimum total odds 2.0)
satisfy the hypotheses, and the search output is duplicate-free. -/
theorem combination_search_exact_witness :
    (demo_matches.Nodup ∧ ∀ x ∈ demo_matches, 0 < x.odds) ∧
      (generate_combinations demo_matches 2).Nodup :=
  ⟨⟨by with_unfolding_all decide, by with_unfolding_all decide⟩,
   (combination_search_exact demo_matches 2 (by with_unfolding_all decide)
      (by with_unfolding_all decide)).2⟩

lemma insertDesc_perm (c : Combination) (l : List Combination) :
    (insertDesc c l).Perm (c :: l) := by
  induction l with
  | nil => exact List.Perm.refl _
  | cons x xs ih =>
    unfold insertDesc
    split_ifs with h
    · exact (ih.cons x).trans (List.Perm.swap c x xs)
    · exact List.Perm.refl _

lemma sortDesc_perm : ∀ l : List Combination, (sortDesc l).Perm l := by
  intro l
  induction l with
  | nil => exact List.Perm.refl _
  | cons c rest ih =>
    exact (insertDesc_perm c (sortDesc rest)).trans (ih.cons c)

lemma insertDesc_sorted (c : Combination) (l : List Combination)
    (h : SortedDesc l) : SortedDesc (insertDesc c l) := by
  induction l with
  | nil => simp [insertDesc, SortedDesc]
  | cons x xs ih =>
    rcases List.pairwise_cons.mp h with ⟨hx, hxs⟩
    unfold insertDesc
    split_ifs with hc
    · apply List.pairwise_cons.mpr
      refine ⟨?_, ih hxs⟩
      intro y hy
      rcases List.mem_cons.mp ((insertDesc_perm c xs).mem_iff.mp hy) with rfl | hy'
      · exact le_of_lt hc
      · exact hx y hy'
    · apply List.pairwise_cons.mpr
      refine ⟨?_, h⟩
      intro y hy
      rcases List.mem_cons.mp hy with rfl | hy'
      · exact not_lt.mp hc
      · exact le_trans (hx y hy') (not_lt.mp hc)

lemma sortDesc_sorted : ∀ l : List Combination, SortedDesc (sortDesc l) := by
  intro l
  induction l with
  | nil => simp [sortDesc, SortedDesc]
  | cons c rest ih => exact insertDesc_sorted c (sortDesc rest) ih

/-- C3: for every non-empty list of combinations the ranking step selects
a maximum-probability combination as VIP and a second-highest one as Free
(the VIP itself when only one exists); on the 3-match example of the spec
the valid combinations are exactly the three 2-subsets and the 3-subset
listed, with VIP = {A, C} (probability 0.33) and Free = {A, E}
(probability 0.30). -/
theorem vip_free_selection :
    (∀ combos : List Combination, combos ≠ [] →
      ∃ v f, rank_select combos = some (v, f) ∧
        v ∈ combos ∧
        (∀ c ∈ combos, c.success_probability ≤ v.success_probability) ∧
        ((combos.length = 1 ∧ f = v) ∨
          ∃ rest, combos.Perm (v :: f :: rest) ∧
            f.success_probability ≤ v.success_probability ∧
            ∀ c ∈ rest, c.success_probability ≤ f.success_probability)) ∧
    generate_combinations [exA, exC, exE] 2 =
      [ { matchList := [exA, exC], total_odds := 342/100,
          success_probability := 33/100 },
        { matchList := [exA, exE], total_odds := 36/10,
          success_probability := 3/10 },
        { matchList := [exC, exE], total_odds := 38/10,
          success_probability := 275/1000 },
        { matchList := [exA, exC, exE], total_odds := 684/100,
          success_probability := 165/1000 } ] ∧
    rank_select (generate_combinations [exA, exC, exE] 2) =
      some ({ matchList := [exA, exC], total_odds := 342/100,
              success_probability := 33/100 },
            { matchList := [exA, exE], total_odds := 36/10,
              success_probability := 3/10 }) := by
  refine ⟨?_, by with_unfolding_all decide, by with_unfolding_all decide⟩
  intro combos hne
  have hperm := sortDesc_perm combos
  have hsorted := sortDesc_sorted combos
  unfold rank_select
  cases hs : sortDesc combos with
  | nil =>
    rw [hs] at hperm
    exact absurd (List.perm_nil.mp hperm.symm) hne
  | cons v tail =>
    rw [hs] at hperm hsorted
    cases tail with
    | nil =>
      refine ⟨v, v, rfl, hperm.subset (List.mem_cons_self v []), ?_, ?_⟩
      · intro c hc
        have := hperm.symm.subset hc
        rw [List.mem_singleton.mp this]
      · exact Or.inl ⟨by simpa using hperm.symm.length_eq, rfl⟩
    | cons f rest =>
      rcases List.pairwise_cons.mp hsorted with ⟨hv, htail⟩
      rcases List.pairwise_cons.mp htail with ⟨hf, _⟩
      refine ⟨v, f, rfl, hperm.subset (List.mem_cons_self v _), ?_, ?_⟩
      · intro c hc
        rcases List.mem_cons.mp (hperm.symm.subset hc) with rfl | hc'
        · exact le_refl _
        · exact hv c hc'
      · exact Or.inr ⟨rest, hperm.symm,
          hv f (List.mem_cons_self f rest), hf⟩

/-- Witness for C3: the selection property instantiated at a concrete
one-element list of combinations. -/
theorem vip_free_selection_witness :
    ∃ v f, rank_select [exCombo] = some (v, f) ∧
      v ∈ [exCombo] ∧
      (∀ c ∈ [exCombo], c.success_probability ≤ v.success_probability) ∧
      (([exCombo].length = 1 ∧ f = v) ∨
        ∃ rest, [exCombo].Perm (v :: f :: rest) ∧
          f.success_probability ≤ v.success_probability ∧
          ∀ c ∈ rest, c.success_probability ≤ f.success_probability) :=
  vip_free_selection.1 [exCombo] (by with_unfolding_all decide)

/-- C5: combined probability is the product of the probability values of
the bets (0.0 for the empty list) and combined odds is the product of the
odds values rounded to 2 decimals (0.0 for the empty list); in particular
[0.5, 0.4] gives 0.2 and [2.0, 1.5] gives 3.0. -/
theorem combined_math (bets : List ℚ) :
    calculate_combined_probability bets =
      (if bets = [] then 0 else bets.prod) ∧
    calculate_combined_odds bets =
      (if bets = [] then 0 else round2 bets.prod) ∧
    calculate_combined_probability [] = 0 ∧
    calculate_combined_probability [5/10, 4/10] = 2/10 ∧
    calculate_combined_odds [2, 15/10] = 3 := by
  refine ⟨?_, ?_, by with_unfolding_all decide, by with_unfolding_all decide,
    by with_unfolding_all decide⟩
  · rcases eq_or_ne bets [] with rfl | h
    · simp [calculate_combined_probability]
    · rw [if_neg h, combined_probability_eq_prod bets h]
  · rcases eq_or_ne bets [] with rfl | h
    · simp [calculate_combined_odds]
    · unfold calculate_combined_odds
      rw [if_neg (by simpa [List.isEmpty_iff] using h), if_neg h,
        List.prod_eq_foldl]

/-- C9: in the demo-dataset fallback the vip success probability (0.403)
is strictly lower than the free success probability (0.4176 rounded to
0.418): the demo path assigns fixed pairs without ranking. -/
theorem demo_vip_below_free :
    demo_predictions.vip.success_probability = 403/1000 ∧
    demo_predictions.free.success_probability = 418/1000 ∧
    demo_predictions.vip.success_probability <
      demo_predictions.free.success_probability :=
  ⟨by with_unfolding_all decide, by with_unfolding_all decide,
   by with_unfolding_all decide⟩

lemma floor_le_roundHalfEven (q : ℚ) : ⌊q⌋ ≤ roundHalfEven q := by
  unfold roundHalfEven
  dsimp only
  split_ifs <;> omega

lemma market_odds_bound (t : ℚ) (v : ℚ × ℚ × ℚ)
    (h : lookupQ MARKET_ODDS t = some v) :
    103/100 ≤ v.1 ∧ 103/100 ≤ v.2.1 ∧ 103/100 ≤ v.2.2 := by
  simp only [MARKET_ODDS, lookupQ] at h
  split_ifs at h
  all_goals first
    | (rw [Option.some_inj] at h; rw [← h];
       exact ⟨by norm_num, by norm_num, by norm_num⟩)
    | simp at h

/-- C2 counterexample: at an unknown threshold (6.5) with probability 1
(which lies in [0, 1]) `estimate_over_odds` returns exactly 1.0, which is
below 1.01, refuting the claimed 1.01 lower bound. -/
theorem estimate_over_odds_below_bound :
    estimate_over_odds (13/2) 1 = 1 ∧
    estimate_over_odds (13/2) 1 < 101/100 :=
  ⟨by with_unfolding_all decide, by with_unfolding_all decide⟩

/-- C2 (amended): for every threshold and every probability in [0, 1],
`estimate_over_odds` returns a value at least 1.0; on the known thresholds
the value is at least 1.03 (hence at least 1.01); on the
unknown-threshold branch it equals 1 / max(0.1, p) rounded to 2 decimals,
which is exactly 1.0 at p = 1. -/
theorem estimate_over_odds_lower_bound (t p : ℚ) (h0 : 0 ≤ p) (h1 : p ≤ 1) :
    1 ≤ estimate_over_odds t p ∧
    (lookupQ MARKET_ODDS t ≠ none → 103/100 ≤ estimate_over_odds t p) ∧
    (lookupQ MARKET_ODDS t = none →
      estimate_over_odds t p = round2 (1 / max (1/10) p)) := by
  cases hE : lookupQ MARKET_ODDS t with
  | none =>
    refine ⟨?_, fun h => absurd rfl h, fun _ => by
      unfold estimate_over_odds
      rw [hE]⟩
    unfold estimate_over_odds
    rw [hE]
    have hM1 : (1/10 : ℚ) ≤ max (1/10) p := le_max_left _ _
    have hM2 : max (1/10) p ≤ 1 := max_le (by norm_num) h1
    have hMpos : (0 : ℚ) < max (1/10) p := by linarith
    have hq : (1 : ℚ) ≤ 1 / max (1/10) p := by
      rw [le_div_iff hMpos]
      linarith
    unfold round2 roundTo
    have hfl : (100 : ℤ) ≤ ⌊(1 / max (1/10) p) * (10 : ℚ) ^ 2⌋ := by
      apply Int.le_floor.mpr
      push_cast
      nlinarith
    have hr : (100 : ℤ) ≤ roundHalfEven ((1 / max (1/10) p) * (10 : ℚ) ^ 2) :=
      le_trans hfl (floor_le_roundHalfEven _)
    rw [le_div_iff (by norm_num : (0:ℚ) < (10:ℚ)^2)]
    have : ((100 : ℤ) : ℚ) ≤
        ((roundHalfEven ((1 / max (1/10) p) * (10 : ℚ) ^ 2) : ℤ) : ℚ) :=
      Int.cast_le.mpr hr
    push_cast at this ⊢
    linarith
  | some v =>
    have hb := market_odds_bound t v hE
    have hmain : 103/100 ≤ estimate_over_odds t p := by
      unfold estimate_over_odds
      rw [hE]
      split_ifs
      · exact hb.1
      · exact hb.2.1
      · exact hb.2.2
    exact ⟨by linarith, fun _ => hmain, fun h => absurd h (by simp)⟩

/-- Witness for the amended C2, at threshold 6.5 and probability 1/2. -/
theorem estimate_over_odds_lower_bound_witness :
    1 ≤ estimate_over_odds (13/2) (1/2) ∧
    (lookupQ MARKET_ODDS (13/2) = none →
      estimate_over_odds (13/2) (1/2) = round2 (1 / max (1/10) (1/2))) :=
  ⟨(estimate_over_odds_lower_bound (13/2) (1/2) (by norm_num) (by norm_num)).1,
   (estimate_over_odds_lower_bound (13/2) (1/2) (by norm_num)
      (by norm_num)).2.2⟩

lemma expire_status_ne_pending (p : StoredPrediction) :
    (expire_if_pending p).status ≠ PredStatus.pending := by
  unfold expire_if_pending
  split_ifs with h
  · simp
  · simpa using h

lemma expire_status_of_pending {p : StoredPrediction}
    (h : p.status = PredStatus.pending) :
    (expire_if_pending p).status = PredStatus.expired := by
  unfold expire_if_pending
  rw [if_pos h]

lemma is_vip_pending_status {p : StoredPrediction}
    (h : is_vip_pending p = true) : p.status = PredStatus.pending := by
  unfold is_vip_pending at h
  cases hp : p.prediction_type <;> cases hs : p.status <;> simp_all

lemma is_free_pending_status {p : StoredPrediction}
    (h : is_free_pending p = true) : p.status = PredStatus.pending := by
  unfold is_free_pending at h
  cases hp : p.prediction_type <;> cases hs : p.status <;> simp_all

lemma countP_map_expire_eq_zero (db : List StoredPrediction)
    (q : StoredPrediction → Bool)
    (hq : ∀ p, q p = true → p.status = PredStatus.pending) :
    (db.map expire_if_pending).countP q = 0 := by
  apply List.countP_eq_zero.mpr
  intro a ha
  rcases List.mem_map.mp ha with ⟨p, _, rfl⟩
  intro hqa
  exact expire_status_ne_pending p (hq _ hqa)

lemma save_countP_vip (db : List StoredPrediction) (pair : PredictionPair) :
    (save_predictions db pair).countP is_vip_pending = 1 := by
  unfold save_predictions
  rw [List.countP_append,
    countP_map_expire_eq_zero db is_vip_pending (fun p => is_vip_pending_status)]
  simp [List.countP_cons, toStoredPrediction, is_vip_pending]

lemma save_countP_free (db : List StoredPrediction) (pair : PredictionPair) :
    (save_predictions db pair).countP is_free_pending = 1 := by
  unfold save_predictions
  rw [List.countP_append,
    countP_map_expire_eq_zero db is_free_pending (fun p => is_free_pending_status)]
  simp [List.countP_cons, toStoredPrediction, is_free_pending]

lemma save_length (db : List StoredPrediction) (pair : PredictionPair) :
    (save_predictions db pair).length = db.length + 2 := by
  unfold save_predictions
  simp

lemma save_getElem?_old (db : List StoredPrediction) (pair : PredictionPair)
    (i : ℕ) (h : i < db.length) :
    (save_predictions db pair)[i]? = (db[i]?).map expire_if_pending := by
  unfold save_predictions
  rw [List.getElem?_append_left (by simpa using h), List.getElem?_map]

lemma save_getElem?_vip (db : List StoredPrediction) (pair : PredictionPair) :
    (save_predictions db pair)[db.length]? =
      some (toStoredPrediction PredType.vip pair.vip) := by
  unfold save_predictions
  rw [List.getElem?_append_right (by simp)]
  simp

lemma save_getElem?_free (db : List StoredPrediction) (pair : PredictionPair) :
    (save_predictions db pair)[db.length + 1]? =
      some (toStoredPrediction PredType.free pair.free) := by
  unfold save_predictions
  rw [List.getElem?_append_right (by simp)]
  simp

lemma save_old_pending_expired (db : List StoredPrediction)
    (pair : PredictionPair) (i : ℕ) (hi : i < db.length)
    (hp : db[i]?.map StoredPrediction.status = some PredStatus.pending) :
    (save_predictions db pair)[i]?.map StoredPrediction.status =
      some PredStatus.expired := by
  rw [save_getElem?_old db pair i hi]
  cases hdb : db[i]? with
  | none => rw [hdb] at hp; simp at hp
  | some p =>
    rw [hdb] at hp
    have hp' : p.status = PredStatus.pending := by simpa using hp
    simpa using expire_status_of_pending hp'

/-- C4: after every successful run of the persist step exactly one vip row
and one free row have status pending, and every row that was pending
before the run is expired; after a second successful run the two rows the
first run inserted are expired as well, again leaving exactly one pending
row per type. -/
theorem persist_pending_invariant (db : List StoredPrediction)
    (fetched fetchedTwo : List RawMatch)
    (analyze analyzeTwo : RawMatch → Option AnalyzedMatch) :
    (generate_and_save_predictions db fetched analyze).countP
        is_vip_pending = 1 ∧
    (generate_and_save_predictions db fetched analyze).countP
        is_free_pending = 1 ∧
    (∀ i, i < db.length →
      db[i]?.map StoredPrediction.status = some PredStatus.pending →
      (generate_and_save_predictions db fetched analyze)[i]?.map
          StoredPrediction.status = some PredStatus.expired) ∧
    (generate_and_save_predictions
        (generate_and_save_predictions db fetched analyze) fetchedTwo
        analyzeTwo)[db.length]?.map StoredPrediction.status =
      some PredStatus.expired ∧
    (generate_and_save_predictions
        (generate_and_save_predictions db fetched analyze) fetchedTwo
        analyzeTwo)[db.length + 1]?.map StoredPrediction.status =
      some PredStatus.expired ∧
    (generate_and_save_predictions
        (generate_and_save_predictions db fetched analyze) fetchedTwo
        analyzeTwo).countP is_vip_pending = 1 ∧
    (generate_and_save_predictions
        (generate_and_save_predictions db fetched analyze) fetchedTwo
        analyzeTwo).countP is_free_pending = 1 := by
  unfold generate_and_save_predictions
  refine ⟨save_countP_vip _ _, save_countP_free _ _,
    fun i hi hp => save_old_pending_expired _ _ i hi hp, ?_, ?_,
    save_countP_vip _ _, save_countP_free _ _⟩
  · rw [save_getElem?_old _ _ db.length (by rw [save_length]; omega),
      save_getElem?_vip]
    simpa using expire_status_of_pending rfl
  · rw [save_getElem?_old _ _ (db.length + 1) (by rw [save_length]; omega),
      save_getElem?_free]
    simpa using expire_status_of_pending rfl

/-- Witness for C4: a database holding one pending row, run on empty
fetched data; the pending row is expired by the run. -/
theorem persist_pending_invariant_witness :
    0 < ([examplePendingRow] : List StoredPrediction).length ∧
    ([examplePendingRow] : List StoredPrediction)[0]?.map
        StoredPrediction.status = some PredStatus.pending ∧
    (generate_and_save_predictions [examplePendingRow] []
        (fun _ => none))[0]?.map StoredPrediction.status =
      some PredStatus.expired :=
  ⟨by norm_num, by with_unfolding_all decide,
   (persist_pending_invariant [examplePendingRow] [] [] (fun _ => none)
      (fun _ => none)).2.2.1 0 (by norm_num) (by with_unfolding_all decide)⟩

/-- C6: under every insufficient-data condition (no fetched matches, fewer
than two analyzable matches, or no valid combination) the run returns the
demo predictions rather than an error, and the persist step still inserts
exactly one pending vip and one pending free stored prediction, each with
a non-empty match list. -/
theorem insufficient_data_fallback (db : List StoredPrediction)
    (fetched : List RawMatch) (analyze : RawMatch → Option AnalyzedMatch)
    (h : fetched = [] ∨
      ((fetched.take 20).filterMap analyze).length < 2 ∨
      generate_combinations ((fetched.take 20).filterMap analyze)
        MIN_TOTAL_ODDS = []) :
    generate_predictions fetched analyze = demo_predictions ∧
    (generate_and_save_predictions db fetched analyze).countP
        is_vip_pending = 1 ∧
    (generate_and_save_predictions db fetched analyze).countP
        is_free_pending = 1 ∧
    (∀ p ∈ generate_and_save_predictions db fetched analyze,
      p.status = PredStatus.pending → p.matchList ≠ []) := by
  have hgen : generate_predictions fetched analyze = demo_predictions := by
    unfold generate_predictions
    rcases eq_or_ne fetched [] with rfl | hne
    · simp
    · rw [if_neg (by simpa [List.isEmpty_iff] using hne)]
      rcases h with rfl | h2 | hcombos
      · exact absurd rfl hne
      · rw [if_pos h2]
      · by_cases h2 : ((fetched.take 20).filterMap analyze).length < 2
        · rw [if_pos h2]
        · rw [if_neg h2, hcombos]
          rfl
  refine ⟨hgen, ?_, ?_, ?_⟩
  · unfold generate_and_save_predictions
    exact save_countP_vip _ _
  · unfold generate_and_save_predictions
    exact save_countP_free _ _
  · unfold generate_and_save_predictions
    rw [hgen]
    unfold save_predictions
    intro p hp hpend
    rcases List.mem_append.mp hp with hold | hnew
    · rcases List.mem_map.mp hold with ⟨q, _, rfl⟩
      exact absurd hpend (expire_status_ne_pending q)
    · rcases List.mem_cons.mp hnew with rfl | hnew2
      · with_unfolding_all decide
      · rcases List.mem_cons.mp hnew2 with rfl | hnil
        · with_unfolding_all decide
        · simp at hnil

/-- Witness for C6: the empty-fetch condition on an empty database. -/
theorem insufficient_data_fallback_witness :
    generate_predictions [] (fun _ => none) = demo_predictions ∧
    (generate_and_save_predictions [] [] (fun _ => none)).countP
        is_vip_pending = 1 :=
  ⟨(insufficient_data_fallback [] [] (fun _ => none) (Or.inl rfl)).1,
   (insufficient_data_fallback [] [] (fun _ => none) (Or.inl rfl)).2.1⟩

lemma pass_over_none (preds : List (ℚ × PredData)) (cutoff : ℚ)
    (order : List ℚ)
    (h : ∀ t ∈ order, ∀ d, lookupQ preds t = some d →
      d.probability < cutoff) :
    pass_over preds cutoff order = none := by
  induction order with
  | nil => rfl
  | cons t rest ih =>
    unfold pass_over
    cases hl : lookupQ preds t with
    | none => exact ih fun u hu d hd => h u (List.mem_cons_of_mem t hu) d hd
    | some d =>
      dsimp only
      rw [if_neg (not_le.mpr (h t (List.mem_cons_self t rest) d hl))]
      exact ih fun u hu d hd => h u (List.mem_cons_of_mem t hu) d hd

lemma pass_over_threshold_mem (preds : List (ℚ × PredData)) (cutoff : ℚ)
    (order : List ℚ) (b : BestBet)
    (h : pass_over preds cutoff order = some b) :
    b.threshold ∈ order := by
  induction order with
  | nil => simp [pass_over] at h
  | cons t rest ih =>
    unfold pass_over at h
    cases hl : lookupQ preds t with
    | none =>
      rw [hl] at h
      dsimp only at h
      exact List.mem_cons_of_mem t (ih h)
    | some d =>
      rw [hl] at h
      dsimp only at h
      split_ifs at h with hc
      · rcases Option.some_inj.mp h with rfl
        exact List.mem_cons_self _ _
      · exact List.mem_cons_of_mem t (ih h)

lemma priority_ne_45 {t : ℚ} (h : t ∈ priority_order) : t ≠ 9/2 := by
  simp only [priority_order, List.mem_cons, List.not_mem_nil, or_false] at h
  rcases h with rfl | rfl | rfl | rfl <;> norm_num

lemma foldl_fb_mem : ∀ (l : List (ℚ × PredData)) (e : ℚ × PredData),
    l.foldl fb_step e ∈ e :: l := by
  intro l
  induction l with
  | nil => intro e; exact List.mem_singleton.mpr rfl
  | cons x xs ih =>
    intro e
    rw [List.foldl_cons]
    rcases List.mem_cons.mp (ih (fb_step e x)) with heq | hmem
    · rw [heq]
      unfold fb_step
      split_ifs
      · exact List.mem_cons_of_mem e (List.mem_cons_self x xs)
      · exact List.mem_cons_self e _
    · exact List.mem_cons_of_mem e (List.mem_cons_of_mem x hmem)

lemma foldl_fb_ge : ∀ (l : List (ℚ × PredData)) (e : ℚ × PredData),
    ∀ y ∈ e :: l, y.2.probability ≤ (l.foldl fb_step e).2.probability := by
  intro l
  induction l with
  | nil =>
    intro e y hy
    rw [List.mem_singleton.mp hy]
    exact le_refl _
  | cons x xs ih =>
    intro e y hy
    rw [List.foldl_cons]
    have hstep : e.2.probability ≤ (fb_step e x).2.probability ∧
        x.2.probability ≤ (fb_step e x).2.probability := by
      unfold fb_step
      split_ifs with h
      · exact ⟨le_of_lt h, le_refl _⟩
      · exact ⟨le_refl _, not_lt.mp h⟩
    rcases List.mem_cons.mp hy with heq | hy'
    · rw [heq]
      exact le_trans hstep.1
        (ih (fb_step e x) _ (List.mem_cons_self _ _))
    · rcases List.mem_cons.mp hy' with heq | hy''
      · rw [heq]
        exact le_trans hstep.2
          (ih (fb_step e x) _ (List.mem_cons_self _ _))
      · exact ih (fb_step e x) y (List.mem_cons_of_mem _ hy'')

/-- C7: on every non-empty predictions map `get_best_bet_type` returns a
pick, and when no threshold of the priority order meets the minimum
probability or the relaxed cutoffs 0.75 and 0.65, the pick is a
highest-probability entry of the map. -/
theorem best_bet_never_fails (preds : List (ℚ × PredData)) (min_prob : ℚ)
    (hne : preds ≠ []) :
    (∃ b, get_best_bet_type preds min_prob = some b) ∧
    ((∀ t ∈ priority_order, ∀ d, lookupQ preds t = some d →
        d.probability < min_prob ∧ d.probability < 75/100 ∧
          d.probability < 65/100) →
      ∃ b, get_best_bet_type preds min_prob = some b ∧
        ∃ d, (b.threshold, d) ∈ preds ∧ d.probability = b.probability ∧
          d.bet_type = b.bet_type ∧
          ∀ e ∈ preds, e.2.probability ≤ b.probability) := by
  constructor
  · unfold get_best_bet_type
    cases h1 : pass_over preds min_prob priority_order with
    | some b => exact ⟨b, rfl⟩
    | none =>
      cases h2 : pass_over preds (75/100) priority_order with
      | some b => exact ⟨b, rfl⟩
      | none =>
        cases h3 : pass_over preds (65/100) priority_order with
        | some b => exact ⟨b, rfl⟩
        | none =>
          cases preds with
          | nil => exact absurd rfl hne
          | cons e rest => exact ⟨_, rfl⟩
  · intro hlow
    have h1 : pass_over preds min_prob priority_order = none :=
      pass_over_none _ _ _ fun t ht d hd => (hlow t ht d hd).1
    have h2 : pass_over preds (75/100) priority_order = none :=
      pass_over_none _ _ _ fun t ht d hd => (hlow t ht d hd).2.1
    have h3 : pass_over preds (65/100) priority_order = none :=
      pass_over_none _ _ _ fun t ht d hd => (hlow t ht d hd).2.2
    unfold get_best_bet_type
    rw [h1, h2, h3]
    cases preds with
    | nil => exact absurd rfl hne
    | cons e rest =>
      refine ⟨_, rfl, (rest.foldl fb_step e).2, ?_, rfl, rfl, ?_⟩
      · exact foldl_fb_mem rest e
      · exact foldl_fb_ge rest e

/-- Witness for C7: a one-entry predictions map at minimum probability
0.85. -/
theorem best_bet_never_fails_witness :
    ∃ b, get_best_bet_type
        [((1:ℚ)/2, { probability := 9/10, bet_type := "Over 0.5",
                     confidence := "low" })] (17/20) = some b :=
  (best_bet_never_fails
    [((1:ℚ)/2, { probability := 9/10, bet_type := "Over 0.5",
                 confidence := "low" })] (17/20) (by simp)).1

/-- C8: whenever the estimated odds for the selected best bet fall below
1.15, `_analyze_match` returns none, silently dropping the match before
combination building; in particular a best bet on threshold 0.5 (all of
whose market-odds bands are at most 1.12) is always dropped. -/
theorem low_odds_match_excluded (m : RawMatch)
    (preds : List (ℚ × PredData)) (best : BestBet)
    (h : get_best_bet_type preds (50/100) = some best) :
    (estimate_over_odds best.threshold best.probability < 115/100 →
      analyze_match_best m preds = none) ∧
    (best.threshold = 1/2 → analyze_match_best m preds = none) := by
  have hdrop : estimate_over_odds best.threshold best.probability < 115/100 →
      analyze_match_best m preds = none := by
    intro hlt
    unfold analyze_match_best
    rw [h]
    dsimp only
    rw [if_pos hlt]
  refine ⟨hdrop, fun ht => hdrop ?_⟩
  rw [ht]
  unfold estimate_over_odds
  rw [show lookupQ MARKET_ODDS (1/2) =
      some (103/100, 107/100, 112/100) from by with_unfolding_all rfl]
  split_ifs <;> norm_num

/-- Witness for C8: a map whose best bet is Over 0.5; the match is
excluded. -/
theorem low_odds_match_excluded_witness :
    get_best_bet_type
        [((1:ℚ)/2, { probability := 9/10, bet_type := "Over 0.5",
                     confidence := "low" })] (50/100) =
      some { bet_type := "Over 0.5", probability := 9/10,
             threshold := 1/2 } ∧
    analyze_match_best
        { home_team := "H", away_team := "A", competition_name := "L" }
        [((1:ℚ)/2, { probability := 9/10, bet_type := "Over 0.5",
                     confidence := "low" })] = none :=
  ⟨by with_unfolding_all decide,
   (low_odds_match_excluded
      { home_team := "H", away_team := "A", competition_name := "L" }
      [((1:ℚ)/2, { probability := 9/10, bet_type := "Over 0.5",
                   confidence := "low" })]
      { bet_type := "Over 0.5", probability := 9/10, threshold := 1/2 }
      (by with_unfolding_all decide)).2 (by with_unfolding_all decide)⟩

lemma clampFactor_bounds (x : ℚ) :
    -(1/2) ≤ clampFactor x ∧ clampFactor x ≤ 1/2 :=
  ⟨le_max_left _ _, max_le (by norm_num) (min_le_left _ _)⟩

lemma calculate_factors_bounds (hm am : List FormSample) (h2h : ℚ) :
    ∀ x ∈ [(calculate_factors hm am h2h).team_scoring_form,
           (calculate_factors hm am h2h).team_conceding_form,
           (calculate_factors hm am h2h).h2h_history,
           (calculate_factors hm am h2h).league_position,
           (calculate_factors hm am h2h).home_advantage,
           (calculate_factors hm am h2h).recent_goals_trend],
      -(1/2) ≤ x ∧ x ≤ 1/2 := by
  intro x hx
  simp only [List.mem_cons, List.not_mem_nil, or_false] at hx
  unfold calculate_factors at hx
  dsimp only at hx
  rcases hx with rfl | rfl | rfl | rfl | rfl | rfl <;>
    exact clampFactor_bounds _

lemma clamp_mono_strict {A B : ℚ} (hBle : B ≤ 855/1000)
    (hAge : 40/100 ≤ A) (hAB : B + 545/1000 ≤ A) :
    min (95/100) (max (5/100) B) < min (95/100) (max (5/100) A) := by
  rw [min_eq_right (max_le (by norm_num) (by linarith))]
  rcases le_or_lt (95/100 : ℚ) A with hA | hA
  · rw [min_eq_left (le_trans hA (le_max_right _ _))]
    exact max_lt (by norm_num) (by linarith)
  · rw [max_eq_right (by linarith : (5:ℚ)/100 ≤ A),
      min_eq_right (le_of_lt hA)]
    exact max_lt (by linarith) (by linarith)

lemma prob05_gt_prob45 (f : Factors)
    (hb : ∀ x ∈ [f.team_scoring_form, f.team_conceding_form, f.h2h_history,
                 f.league_position, f.home_advantage, f.recent_goals_trend],
      -(1/2) ≤ x ∧ x ≤ 1/2) :
    min (95/100) (max (5/100) (adjust_probability (28/100) f (9/2))) <
      min (95/100) (max (5/100) (adjust_probability (95/100) f (1/2))) := by
  obtain ⟨hs1, hs2⟩ := hb f.team_scoring_form (by simp)
  obtain ⟨hc1, hc2⟩ := hb f.team_conceding_form (by simp)
  obtain ⟨hh1, hh2⟩ := hb f.h2h_history (by simp)
  obtain ⟨hl1, hl2⟩ := hb f.league_position (by simp)
  obtain ⟨ha1, ha2⟩ := hb f.home_advantage (by simp)
  obtain ⟨ht1, ht2⟩ := hb f.recent_goals_trend (by simp)
  have hA : adjust_probability (95/100) f (1/2) =
      95/100 + weighted_adjustment f + f.team_scoring_form * (1/10) := by
    unfold adjust_probability
    dsimp only
    rw [if_pos (by norm_num : (1:ℚ)/2 ≤ 3/2)]
  have hB : adjust_probability (28/100) f (9/2) =
      28/100 + weighted_adjustment f +
        f.recent_goals_trend * (15/100) := by
    unfold adjust_probability
    dsimp only
    rw [if_neg (by norm_num : ¬(9:ℚ)/2 ≤ 3/2),
      if_pos (by norm_num : (7:ℚ)/2 ≤ 9/2)]
  have hW_le : weighted_adjustment f ≤ 1/2 := by
    unfold weighted_adjustment
    linarith
  have hW_ge : -(1/2) ≤ weighted_adjustment f := by
    unfold weighted_adjustment
    linarith
  apply clamp_mono_strict
  · rw [hB]; linarith
  · rw [hA]; linarith
  · rw [hA, hB]; linarith

lemma fb_acc3_facts (eA eB eC eD : ℚ × PredData)
    (hA : eA.1 ≠ 9/2) (hB : eB.1 ≠ 9/2) (hC : eC.1 ≠ 9/2)
    (hD : eD.1 ≠ 9/2) :
    (fb_step (fb_step (fb_step eA eB) eC) eD).1 ≠ 9/2 ∧
    eA.2.probability ≤
      (fb_step (fb_step (fb_step eA eB) eC) eD).2.probability := by
  unfold fb_step
  split_ifs <;> constructor <;> first | assumption | linarith

lemma fb_chain_ne (acc e : ℚ × PredData) (hacc : acc.1 ≠ 9/2)
    (hlt : e.2.probability < acc.2.probability) :
    (fb_step acc e).1 ≠ 9/2 := by
  unfold fb_step
  rw [if_neg (not_lt.mpr (le_of_lt hlt))]
  exact hacc

/-- C10: on every predictions map produced by `analyze_match`,
`get_best_bet_type` never selects threshold 4.5: the priority order omits
it, and in the highest-probability fallback the Over 0.5 probability
always strictly dominates the Over 4.5 probability under the factor
clamps. -/
theorem never_selects_over45 (hm am : List FormSample) (h2h min_prob : ℚ)
    (b : BestBet)
    (h : get_best_bet_type
        (analyze_match_predictions (calculate_factors hm am h2h))
        min_prob = some b) :
    b.threshold ≠ 9/2 := by
  set f := calculate_factors hm am h2h with hf
  have hbounds := calculate_factors_bounds hm am h2h
  rw [← hf] at hbounds
  have hkey := prob05_gt_prob45 f hbounds
  unfold get_best_bet_type at h
  cases h1 : pass_over (analyze_match_predictions f) min_prob
      priority_order with
  | some b1 =>
    rw [h1] at h
    dsimp only at h
    obtain rfl := Option.some_inj.mp h
    exact priority_ne_45 (pass_over_threshold_mem _ _ _ _ h1)
  | none =>
  rw [h1] at h
  dsimp only at h
  cases h2 : pass_over (analyze_match_predictions f) (75/100)
      priority_order with
  | some b2 =>
    rw [h2] at h
    dsimp only at h
    obtain rfl := Option.some_inj.mp h
    exact priority_ne_45 (pass_over_threshold_mem _ _ _ _ h2)
  | none =>
  rw [h2] at h
  dsimp only at h
  cases h3 : pass_over (analyze_match_predictions f) (65/100)
      priority_order with
  | some b3 =>
    rw [h3] at h
    dsimp only at h
    obtain rfl := Option.some_inj.mp h
    exact priority_ne_45 (pass_over_threshold_mem _ _ _ _ h3)
  | none =>
  rw [h3] at h
  dsimp only at h
  simp only [analyze_match_predictions, base_probabilities, List.map_cons,
    List.map_nil] at h
  simp only [List.foldl_cons, List.foldl_nil] at h
  obtain rfl := Option.some_inj.mp h
  have hfacts := fb_acc3_facts
    ((1:ℚ)/2,
      { probability := 95/100 ⊓ (5/100 ⊔ adjust_probability (95/100) f (1/2)),
        bet_type := overLabel (1/2), confidence := calculate_confidence f })
    ((3:ℚ)/2,
      { probability := 95/100 ⊓ (5/100 ⊔ adjust_probability (92/100) f (3/2)),
        bet_type := overLabel (3/2), confidence := calculate_confidence f })
    ((5:ℚ)/2,
      { probability := 95/100 ⊓ (5/100 ⊔ adjust_probability (72/100) f (5/2)),
        bet_type := overLabel (5/2), confidence := calculate_confidence f })
    ((7:ℚ)/2,
      { probability := 95/100 ⊓ (5/100 ⊔ adjust_probability (48/100) f (7/2)),
        bet_type := overLabel (7/2), confidence := calculate_confidence f })
    (by norm_num) (by norm_num) (by norm_num) (by norm_num)
  exact fb_chain_ne _
    ((9:ℚ)/2,
      { probability := 95/100 ⊓ (5/100 ⊔ adjust_probability (28/100) f (9/2)),
        bet_type := overLabel (9/2), confidence := calculate_confidence f })
    hfacts.1 (lt_of_lt_of_le hkey hfacts.2)

/-- Witness for C10: with no form data and neutral head-to-head the best
bet is Over 1.5, whose threshold differs from 4.5. -/
theorem never_selects_over45_witness :
    get_best_bet_type
        (analyze_match_predictions (calculate_factors [] [] (5/2)))
        (17/20) =
      some { bet_type := "Over 1.5", probability := 93/100,
             threshold := 3/2 } ∧
    ({ bet_type := "Over 1.5", probability := 93/100,
       threshold := 3/2 } : BestBet).threshold ≠ 9/2 :=
  ⟨by with_unfolding_all decide,
   never_selects_over45 [] [] (5/2) (17/20)
     { bet_type := "Over 1.5", probability := 93/100, threshold := 3/2 }
     (by with_unfolding_all decide)⟩
